import Mathlib

/-!
Shallow embedding of the analytics forwarder core
(`src/src/api/index.ts`, class `GenericAnalyticsAPI`).

The component state is the instance's mutable fields (`eventQueue`,
`eventRetryCounter`, `sessionId`).  The external collaborators
(identity API, catalog API, network fetch) are modelled as explicit
inputs describing the behaviour they exhibit during one call: an
`Except Unit` value models a possibly-throwing async call, a `Bool`
models the delivery outcome (HTTP ok vs. non-ok status or transport
failure, which the code treats identically).  Observable effects
(HTTP requests issued, `errorApi.post` calls, retry log lines,
successfully delivered batches) are collected in an `Effects` record.
-/

namespace AnalyticsForwarder

/-- An enriched event, mirroring the record pushed onto `eventQueue`:
`{ event, timestamp, user?, teamMetadata?, sessionId? }`.  The raw
`AnalyticsEvent` payload and the catalog `Entity` are opaque to the
core beyond being serializable, so they are carried as their JSON
serializations. -/
structure EnrichedEvent where
  event : String
  timestamp : Nat
  user : Option String
  teamMetadata : Option String
  sessionId : Option String
deriving DecidableEq, Repr

/-- `JSON.stringify` of an enriched record: object syntax, fields in
declaration order, optional fields that are `undefined` omitted
(as `JSON.stringify` does). -/
def jsonStringifyEnriched (e : EnrichedEvent) : String :=
  "\x7b\"event\":" ++ e.event ++ ",\"timestamp\":" ++ toString e.timestamp ++
  (match e.user with
   | some u => ",\"user\":\"" ++ u ++ "\""
   | none => "") ++
  (match e.teamMetadata with
   | some m => ",\"teamMetadata\":" ++ m
   | none => "") ++
  (match e.sessionId with
   | some s => ",\"sessionId\":\"" ++ s ++ "\""
   | none => "") ++
  "\x7d"

/-- `JSON.stringify` of the batch array sent as the POST body. -/
def jsonStringifyBatch (events : List EnrichedEvent) : String :=
  "[" ++ String.intercalate "," (events.map jsonStringifyEnriched) ++ "]"

/-- `Map.get` on the retry counter (a JS `Map<string, number>`,
modelled as an association list). -/
def mapGet (m : List (String × Nat)) (k : String) : Option Nat :=
  match m with
  | [] => none
  | (k₁, v) :: rest => if k₁ = k then some v else mapGet rest k

/-- `Map.set` on the retry counter: replaces the binding if the key is
present, otherwise appends a new one. -/
def mapSet (m : List (String × Nat)) (k : String) (v : Nat) : List (String × Nat) :=
  match m with
  | [] => [(k, v)]
  | (k₁, v₁) :: rest => if k₁ = k then (k, v) :: rest else (k₁, v₁) :: mapSet rest k v

/-- `private retryLimit: number = 3` — hardcoded in the class, never
reconfigured. -/
def retryLimit : Nat := 3

/-- The instance's mutable state: `eventQueue`, `eventRetryCounter`,
`sessionId`. -/
structure APIState where
  eventQueue : List EnrichedEvent
  eventRetryCounter : List (String × Nat)
  sessionId : Option String
deriving DecidableEq, Repr

/-- Configuration read once at construction: the endpoint (`host`),
the optional basic-auth token, and the flush interval in
milliseconds. -/
structure APIConfig where
  endpoint : String
  basicAuthToken : Option String
  flushInterval : Nat
deriving DecidableEq, Repr

/-- Constructor logic for `flushInterval`: a configured number of
minutes is converted to milliseconds, otherwise the default is 30
minutes. -/
def computeFlushInterval (configFlushIntervalMinutes : Option Nat) : Nat :=
  match configFlushIntervalMinutes with
  | some m => m * 60 * 1000
  | none => 30 * 60 * 1000

/-- One HTTP request handed to `fetch`. -/
structure Request where
  url : String
  method : String
  headers : List (String × String)
  body : String
deriving DecidableEq, Repr

/-- A call to `errorApi.post`: either the per-flush failure report or
the terminal max-retries report identifying an abandoned event by its
serialization. -/
inductive ErrorPost where
  | flushFailed (message : String)
  | maxRetriesReached (eventId : String)
deriving DecidableEq, Repr

/-- Observable effects of one operation: HTTP requests issued, error
sink posts, one entry per re-enqueue log line (`Retrying event: ...`,
recording the event id), and the batches whose delivery succeeded. -/
structure Effects where
  requests : List Request
  errorPosts : List ErrorPost
  retryLogs : List String
  delivered : List (List EnrichedEvent)
deriving DecidableEq, Repr

def Effects.empty : Effects := ⟨[], [], [], []⟩

def Effects.app (a b : Effects) : Effects :=
  ⟨a.requests ++ b.requests, a.errorPosts ++ b.errorPosts,
   a.retryLogs ++ b.retryLogs, a.delivered ++ b.delivered⟩

/-- The headers record built in `flushEvents`: always `Content-Type`,
plus `Authorization: Basic <token>` when `this.basicAuthToken` is
truthy (a present but empty string is falsy in JS, so it adds no
header). -/
def buildHeaders (basicAuthToken : Option String) : List (String × String) :=
  [("Content-Type", "application/json")] ++
  (match basicAuthToken with
   | some t => if t = "" then [] else [("Authorization", "Basic " ++ t)]
   | none => [])

/-- The POST request `flushEvents` makes for a batch. -/
def deliveryRequest (cfg : APIConfig) (events : List EnrichedEvent) : Request :=
  ⟨cfg.endpoint, "POST", buildHeaders cfg.basicAuthToken, jsonStringifyBatch events⟩

/-- The failure-path body of `events.forEach` in `flushEvents`:
compute `eventId = JSON.stringify(event)`, look up the retry count
(default 0); below `retryLimit` re-enqueue and increment, otherwise
post the max-retries report. -/
def retryOne (acc : APIState × Effects) (ev : EnrichedEvent) : APIState × Effects :=
  let st := acc.1
  let eff := acc.2
  let eventId := jsonStringifyEnriched ev
  let retries := (mapGet st.eventRetryCounter eventId).getD 0
  if retries < retryLimit then
    ({ st with eventQueue := st.eventQueue ++ [ev],
               eventRetryCounter := mapSet st.eventRetryCounter eventId (retries + 1) },
     { eff with retryLogs := eff.retryLogs ++ [eventId] })
  else
    (st, { eff with errorPosts := eff.errorPosts ++ [ErrorPost.maxRetriesReached eventId] })

/-- `flushEvents(events)`: no-op on an empty batch; otherwise POST the
JSON-serialized batch.  `deliveryOk` is the outcome of the send: on
success the batch is considered fully delivered; on failure (non-ok
status or transport error, both landing in the same `catch`) the
flush failure is posted to the error sink and every event of the
batch goes through the retry bookkeeping. -/
def flushEvents (cfg : APIConfig) (deliveryOk : Bool) (events : List EnrichedEvent)
    (st : APIState) : APIState × Effects :=
  if events.length = 0 then
    (st, Effects.empty)
  else
    let req := deliveryRequest cfg events
    if deliveryOk then
      (st, ⟨[req], [], [], [events]⟩)
    else
      let eff0 : Effects :=
        ⟨[req], [ErrorPost.flushFailed "Failed to flush analytics events"], [], []⟩
      events.foldl retryOne (st, eff0)

/-- `getUser()`: returns `identity?.userEntityRef`; a throwing
identity API is caught and yields `undefined`. -/
def getUser (idRes : Except Unit (Option String)) : Option String :=
  match idRes with
  | Except.error _ => none
  | Except.ok r => r

/-- JS falsiness of the `user` value: `undefined` and the empty
string fail the `if (!user)` guard. -/
def userFalsy (user : Option String) : Bool :=
  match user with
  | none => true
  | some s => s == ""

/-- The collaborator behaviour during one capture call: the identity
lookup result (`Except.error` = the identity API threw), the catalog
`getEntityByRef` result (`Except.error` = the catalog API threw /
rejected; `Except.ok` carries the optional serialized entity), the
current wall-clock time, and the delivery outcome should a flush be
triggered by this call. -/
structure CaptureEnv where
  idRes : Except Unit (Option String)
  catRes : Except Unit (Option String)
  now : Nat
  deliveryOk : Bool
deriving Repr

/-- Outcome of one capture call: `threw` is true when the async method
rejected back to its caller (nothing in the code catches a
`getEntityByRef` rejection), plus the post-call state and the
effects. -/
structure CaptureResult where
  threw : Bool
  state : APIState
  effects : Effects
deriving Repr

/-- The enriched record a successful capture builds from its inputs. -/
def enrichOf (env : CaptureEnv) (md : Option String) (ev : String)
    (st : APIState) : EnrichedEvent :=
  ⟨ev, env.now, getUser env.idRes, md, st.sessionId⟩

/-- The prototype `captureEvent` method: resolve the user (dropping
the event when falsy), await the catalog lookup (a rejection
propagates), push the enriched record, and in instant mode pop it
back off and flush it alone. -/
def captureEvent (cfg : APIConfig) (env : CaptureEnv) (ev : String)
    (st : APIState) : CaptureResult :=
  if userFalsy (getUser env.idRes) then
    ⟨false, st, Effects.empty⟩
  else
    match env.catRes with
    | Except.error _ => ⟨true, st, Effects.empty⟩
    | Except.ok md =>
      let enriched := enrichOf env md ev st
      let queue1 := st.eventQueue ++ [enriched]
      let st1 := { st with eventQueue := queue1 }
      if cfg.flushInterval = 0 then
        match queue1.getLast? with
        | some eventToFlush =>
          let r := flushEvents cfg env.deliveryOk [eventToFlush]
                     { st1 with eventQueue := queue1.dropLast }
          ⟨false, r.1, r.2⟩
        | none => ⟨false, st1, Effects.empty⟩
      else
        ⟨false, st1, Effects.empty⟩

/-- `instantCaptureEvent`: same enrichment, then the single-event
batch is flushed directly without touching the queue. -/
def instantCaptureEvent (cfg : APIConfig) (env : CaptureEnv) (ev : String)
    (st : APIState) : CaptureResult :=
  if userFalsy (getUser env.idRes) then
    ⟨false, st, Effects.empty⟩
  else
    match env.catRes with
    | Except.error _ => ⟨true, st, Effects.empty⟩
    | Except.ok md =>
      let enriched := enrichOf env md ev st
      let r := flushEvents cfg env.deliveryOk [enriched] st
      ⟨false, r.1, r.2⟩

/-- The public capture entry point after construction: the
constructor reassigns `this.captureEvent = this.instantCaptureEvent`
when the flush interval is 0, otherwise the prototype method stays in
place (and a periodic flush cycle is started). -/
def capture (cfg : APIConfig) (env : CaptureEnv) (ev : String)
    (st : APIState) : CaptureResult :=
  if cfg.flushInterval = 0 then instantCaptureEvent cfg env ev st
  else captureEvent cfg env ev st

/-- One tick of the `setInterval` callback installed by
`startFlushCycle`: when the queue is non-empty, `splice(0)` empties
it and the removed batch is flushed. -/
def flushTick (cfg : APIConfig) (deliveryOk : Bool) (st : APIState) : APIState × Effects :=
  if st.eventQueue.length > 0 then
    flushEvents cfg deliveryOk st.eventQueue { st with eventQueue := [] }
  else
    (st, Effects.empty)

/-- One externally triggered operation on the component: a capture
call (with the collaborator behaviour it observes) or a timer tick
(with its delivery outcome). -/
inductive Step where
  | capture (ev : String) (env : CaptureEnv)
  | tick (deliveryOk : Bool)

/-- Run one step. -/
def runStep (cfg : APIConfig) (st : APIState) : Step → APIState × Effects
  | Step.capture ev env =>
    let r := capture cfg env ev st
    (r.state, r.effects)
  | Step.tick deliveryOk => flushTick cfg deliveryOk st

/-- Run a sequence of steps, accumulating effects. -/
def runTrace (cfg : APIConfig) (steps : List Step) (st : APIState) : APIState × Effects :=
  match steps with
  | [] => (st, Effects.empty)
  | s :: rest =>
    let r := runStep cfg st s
    let r₂ := runTrace cfg rest r.1
    (r₂.1, Effects.app r.2 r₂.2)

/-- The metadata a catalog result carries when it did not throw. -/
def exceptMd (r : Except Unit (Option String)) : Option String :=
  match r with
  | Except.ok md => md
  | Except.error _ => none

/-- The enriched record a capture with collaborator behaviour `i.2`
and payload `i.1` builds, given the session id at capture time. -/
def enrichInput (sid : Option String) (i : String × CaptureEnv) : EnrichedEvent :=
  ⟨i.1, i.2.now, getUser i.2.idRes, exceptMd i.2.catRes, sid⟩

/-- A capture input whose user resolves (non-falsy) and whose catalog
lookup returns instead of throwing. -/
def GoodInput (i : String × CaptureEnv) : Prop :=
  userFalsy (getUser i.2.idRes) = false ∧ ∃ md, i.2.catRes = Except.ok md

/-- The retry-ledger invariant: every stored count is at most
`retryLimit`. -/
def CounterBounded (m : List (String × Nat)) : Prop :=
  ∀ k v, mapGet m k = some v → v ≤ retryLimit

/-- Sample serialized `AnalyticsEvent` payload. -/
def sampleEvent : String := "\x7b\"type\":\"click\"\x7d"

/-- Sample serialized catalog entity. -/
def aliceMeta : String := "\x7b\"name\":\"alice\"\x7d"

/-- Instant-mode configuration (interval 0). -/
def cfgInstant : APIConfig := ⟨"https://collect.example/ev", none, 0⟩

/-- Timer-mode configuration (the 30-minute default interval). -/
def cfgTimer : APIConfig :=
  ⟨"https://collect.example/ev", none, computeFlushInterval (some 30)⟩

/-- Collaborators: user resolves, catalog returns metadata, delivery
succeeds. -/
def envAliceOk : CaptureEnv :=
  ⟨Except.ok (some "user:default/alice"), Except.ok (some aliceMeta), 1000, true⟩

/-- Collaborators: user resolves, catalog returns metadata, delivery
fails. -/
def envAliceFail : CaptureEnv :=
  ⟨Except.ok (some "user:default/alice"), Except.ok (some aliceMeta), 1000, false⟩

/-- Collaborators: user resolves, catalog returns metadata, delivery
succeeds, at a later time. -/
def envAliceOk2 : CaptureEnv :=
  ⟨Except.ok (some "user:default/alice"), Except.ok (some aliceMeta), 2000, true⟩

/-- Collaborators: user resolves but the catalog lookup throws. -/
def envCatalogThrow : CaptureEnv :=
  ⟨Except.ok (some "user:default/alice"), Except.error (), 1000, true⟩

/-! ### Basic lemmas: retry-counter map and effect accumulation -/

@[simp]
theorem mapGet_nil (k : String) : mapGet [] k = none := rfl

theorem mapGet_mapSet (m : List (String × Nat)) (k k₂ : String) (v : Nat) :
    mapGet (mapSet m k v) k₂ = if k = k₂ then some v else mapGet m k₂ := by
  induction m with
  | nil => simp [mapSet, mapGet]
  | cons p rest ih =>
    obtain ⟨k₁, v₁⟩ := p
    by_cases h₁ : k₁ = k
    · subst h₁
      by_cases h₂ : k₁ = k₂ <;> simp [mapSet, mapGet, h₂]
    · by_cases h₂ : k₁ = k₂
      · subst h₂
        have hk : ¬ k = k₁ := fun h => h₁ h.symm
        simp [mapSet, mapGet, h₁, hk]
      · simp [mapSet, mapGet, h₁, h₂, ih]

theorem mapGet_mapSet_self (m : List (String × Nat)) (k : String) (v : Nat) :
    mapGet (mapSet m k v) k = some v := by
  simp [mapGet_mapSet]

@[simp]
theorem Effects.app_empty (e : Effects) : Effects.app e Effects.empty = e := by
  cases e; simp [Effects.app, Effects.empty]

@[simp]
theorem Effects.empty_app (e : Effects) : Effects.app Effects.empty e = e := by
  cases e; simp [Effects.app, Effects.empty]

theorem Effects.app_assoc (a b c : Effects) :
    Effects.app (Effects.app a b) c = Effects.app a (Effects.app b c) := by
  cases a; cases b; cases c; simp [Effects.app]

/-! ### Lemmas about the retry fold in `flushEvents` -/

theorem retryOne_requests (acc : APIState × Effects) (ev : EnrichedEvent) :
    (retryOne acc ev).2.requests = acc.2.requests := by
  simp only [retryOne]
  split <;> rfl

theorem retryOne_delivered (acc : APIState × Effects) (ev : EnrichedEvent) :
    (retryOne acc ev).2.delivered = acc.2.delivered := by
  simp only [retryOne]
  split <;> rfl

theorem retryFold_requests (events : List EnrichedEvent) :
    ∀ acc : APIState × Effects,
      ((events.foldl retryOne acc).2.requests = acc.2.requests) := by
  induction events with
  | nil => intro acc; rfl
  | cons e es ih =>
    intro acc
    rw [List.foldl_cons, ih, retryOne_requests]

theorem retryFold_delivered (events : List EnrichedEvent) :
    ∀ acc : APIState × Effects,
      ((events.foldl retryOne acc).2.delivered = acc.2.delivered) := by
  induction events with
  | nil => intro acc; rfl
  | cons e es ih =>
    intro acc
    rw [List.foldl_cons, ih, retryOne_delivered]

theorem flushEvents_requests (cfg : APIConfig) (deliveryOk : Bool)
    (events : List EnrichedEvent) (st : APIState) (h : events ≠ []) :
    (flushEvents cfg deliveryOk events st).2.requests = [deliveryRequest cfg events] := by
  have hlen : ¬ events.length = 0 := by simpa using h
  cases deliveryOk <;> simp [flushEvents, hlen, retryFold_requests]

theorem flushEvents_delivered_ok (cfg : APIConfig) (events : List EnrichedEvent)
    (st : APIState) (h : events ≠ []) :
    (flushEvents cfg true events st).2.delivered = [events] := by
  have hlen : ¬ events.length = 0 := by simpa using h
  simp [flushEvents, hlen]

theorem flushEvents_delivered_fail (cfg : APIConfig) (events : List EnrichedEvent)
    (st : APIState) :
    (flushEvents cfg false events st).2.delivered = [] := by
  by_cases hlen : events.length = 0 <;>
    simp [flushEvents, hlen, retryFold_delivered, Effects.empty]

/-! ### Claim theorems -/

/-- C8: whenever identity resolution throws or returns absent, the
capture call (in either mode) performs no delivery, enqueues nothing,
and leaves the whole component state unchanged: it returns without
throwing, with the state exactly as before and no observable
effects. -/
theorem capture_noop_on_identity_failure (cfg : APIConfig) (env : CaptureEnv)
    (ev : String) (st : APIState)
    (h : env.idRes = Except.error () ∨ env.idRes = Except.ok none) :
    capture cfg env ev st = ⟨false, st, Effects.empty⟩ := by
  have hu : userFalsy (getUser env.idRes) = true := by
    rcases h with h | h <;> simp [getUser, h, userFalsy]
  simp [capture, instantCaptureEvent, captureEvent, hu]

/-- Witness for C8 at a concrete input: identity resolves to absent,
so a capture from the empty state returns it unchanged with no
effects. -/
theorem capture_noop_on_identity_failure_witness :
    ((⟨Except.ok none, Except.ok none, 5, true⟩ : CaptureEnv).idRes = Except.ok none) ∧
    capture cfgInstant ⟨Except.ok none, Except.ok none, 5, true⟩ sampleEvent ⟨[], [], none⟩
      = ⟨false, ⟨[], [], none⟩, Effects.empty⟩ :=
  ⟨rfl, capture_noop_on_identity_failure cfgInstant _ sampleEvent _ (Or.inr rfl)⟩

/-- C2 (code observation): a throwing catalog `getEntityByRef` is not
caught on the capture path — the rejection propagates back to the
caller of `capture`, in instant mode and in timer mode alike.  This
contradicts the spec's propagation policy (which the code's identity
path does honour), so the missing try/catch is a code bug, not a spec
error. -/
theorem capture_rejects_on_catalog_throw :
    (capture cfgInstant envCatalogThrow sampleEvent ⟨[], [], none⟩).threw = true ∧
    (capture cfgTimer envCatalogThrow sampleEvent ⟨[], [], none⟩).threw = true := by
  exact ⟨rfl, rfl⟩

/-- C3: in instant mode (flush interval 0), one capture with a
resolvable user and a returning catalog lookup performs exactly one
delivery call, whose batch is the single enriched event — the request
is produced by the capture call itself, with no timer tick
involved. -/
theorem instant_capture_single_delivery (cfg : APIConfig) (env : CaptureEnv)
    (ev : String) (st : APIState) (md : Option String)
    (h₀ : cfg.flushInterval = 0)
    (hu : userFalsy (getUser env.idRes) = false)
    (hc : env.catRes = Except.ok md) :
    (capture cfg env ev st).threw = false ∧
    (capture cfg env ev st).effects.requests
      = [deliveryRequest cfg [enrichOf env md ev st]] := by
  have hreq := flushEvents_requests cfg env.deliveryOk [enrichOf env md ev st] st (by simp)
  simp [capture, h₀, instantCaptureEvent, hu, hc, hreq]

/-- Witness for C3: the §8 scenario — interval 0, user
`user:default/alice` with metadata, one click event, one singleton
POST. -/
theorem instant_capture_single_delivery_witness :
    cfgInstant.flushInterval = 0 ∧
    (capture cfgInstant envAliceOk sampleEvent ⟨[], [], none⟩).threw = false ∧
    (capture cfgInstant envAliceOk sampleEvent ⟨[], [], none⟩).effects.requests
      = [deliveryRequest cfgInstant
          [enrichOf envAliceOk (some aliceMeta) sampleEvent ⟨[], [], none⟩]] := by
  have h := instant_capture_single_delivery cfgInstant envAliceOk sampleEvent
    ⟨[], [], none⟩ (some aliceMeta) rfl rfl rfl
  exact ⟨rfl, h.1, h.2⟩

/-- C9 (counterexample): with `basicAuthToken` present in the
configuration but equal to the empty string, the JS truthiness test
`if (this.basicAuthToken)` fails, so the request carries no
`Authorization` header at all — refuting "included if and only if a
basicAuthToken is present". -/
theorem auth_header_empty_token_cex :
    (APIConfig.basicAuthToken ⟨"https://collect.example/ev", some "", 5⟩ = some "") ∧
    (flushEvents ⟨"https://collect.example/ev", some "", 5⟩ true
        [⟨sampleEvent, 1000, some "user:default/alice", none, none⟩] ⟨[], [], none⟩).2.requests
      = [⟨"https://collect.example/ev", "POST", [("Content-Type", "application/json")],
          jsonStringifyBatch [⟨sampleEvent, 1000, some "user:default/alice", none, none⟩]⟩] ∧
    (∀ v, ("Authorization", v) ∉
        ([("Content-Type", "application/json")] : List (String × String))) := by
  refine ⟨rfl, rfl, ?_⟩
  intro v hv
  simp at hv

/-- C9 (amended): a non-empty batch is sent as exactly one POST to
the configured endpoint, body the JSON serialization of the batch
array, with `Content-Type: application/json`; the `Authorization:
Basic <token>` header is included precisely when a *non-empty*
`basicAuthToken` is configured (a present-but-empty token, being
falsy, adds no header). -/
theorem flush_request_wire_format (cfg : APIConfig) (deliveryOk : Bool)
    (events : List EnrichedEvent) (st : APIState) (h : events ≠ []) :
    (flushEvents cfg deliveryOk events st).2.requests = [deliveryRequest cfg events] ∧
    (deliveryRequest cfg events).method = "POST" ∧
    (deliveryRequest cfg events).url = cfg.endpoint ∧
    (deliveryRequest cfg events).body = jsonStringifyBatch events ∧
    ((∃ t, cfg.basicAuthToken = some t ∧ ¬ t = "" ∧
        (deliveryRequest cfg events).headers
          = [("Content-Type", "application/json"), ("Authorization", "Basic " ++ t)]) ∨
     ((cfg.basicAuthToken = none ∨ cfg.basicAuthToken = some "") ∧
        (deliveryRequest cfg events).headers = [("Content-Type", "application/json")])) := by
  refine ⟨flushEvents_requests cfg deliveryOk events st h, rfl, rfl, rfl, ?_⟩
  rcases htok : cfg.basicAuthToken with _ | t
  · exact Or.inr ⟨Or.inl rfl, by simp [deliveryRequest, buildHeaders, htok]⟩
  · by_cases ht : t = ""
    · subst ht
      exact Or.inr ⟨Or.inr rfl, by simp [deliveryRequest, buildHeaders, htok]⟩
    · exact Or.inl ⟨t, rfl, ht, by simp [deliveryRequest, buildHeaders, htok, ht]⟩

/-- Witness for the amended C9 at a concrete singleton batch. -/
theorem flush_request_wire_format_witness :
    (([⟨sampleEvent, 1000, some "user:default/alice", none, none⟩] : List EnrichedEvent) ≠ []) ∧
    (flushEvents cfgTimer false
        [⟨sampleEvent, 1000, some "user:default/alice", none, none⟩] ⟨[], [], none⟩).2.requests
      = [deliveryRequest cfgTimer
          [⟨sampleEvent, 1000, some "user:default/alice", none, none⟩]] :=
  ⟨by simp, (flush_request_wire_format cfgTimer false _ _ (by simp)).1⟩

/-- C5: an enriched event whose delivery fails exactly `retryLimit`
times and then succeeds on attempt `retryLimit + 1` is delivered
exactly once overall (the successful-delivery log is exactly one
batch, containing it), the error sink receives only the per-flush
failure reports — never a terminal max-retries report — and the queue
ends empty. -/
theorem retry_then_success_delivers_once (cfg : APIConfig) (e : EnrichedEvent)
    (sid : Option String) :
    (runTrace cfg (List.replicate retryLimit (Step.tick false) ++ [Step.tick true])
        ⟨[e], [], sid⟩).2.delivered = [[e]] ∧
    (runTrace cfg (List.replicate retryLimit (Step.tick false) ++ [Step.tick true])
        ⟨[e], [], sid⟩).2.errorPosts
      = List.replicate retryLimit (ErrorPost.flushFailed "Failed to flush analytics events") ∧
    (runTrace cfg (List.replicate retryLimit (Step.tick false) ++ [Step.tick true])
        ⟨[e], [], sid⟩).1.eventQueue = [] := by
  simp [retryLimit, List.replicate, runTrace, runStep, flushTick, flushEvents,
    retryOne, mapGet, mapSet, Effects.app, Effects.empty]

/-- C6: an enriched event whose delivery fails on all
`retryLimit + 1` attempts produces exactly one terminal max-retries
report to the error sink (after the per-flush failure reports),
identifying the event by its serialization; it is not re-enqueued
after the final failure (the queue ends empty) and no successful
delivery ever contains it. -/
theorem retry_exhaustion_terminal_report (cfg : APIConfig) (e : EnrichedEvent)
    (sid : Option String) :
    (runTrace cfg (List.replicate (retryLimit + 1) (Step.tick false))
        ⟨[e], [], sid⟩).2.errorPosts
      = List.replicate (retryLimit + 1)
          (ErrorPost.flushFailed "Failed to flush analytics events")
        ++ [ErrorPost.maxRetriesReached (jsonStringifyEnriched e)] ∧
    (runTrace cfg (List.replicate (retryLimit + 1) (Step.tick false))
        ⟨[e], [], sid⟩).1.eventQueue = [] ∧
    (runTrace cfg (List.replicate (retryLimit + 1) (Step.tick false))
        ⟨[e], [], sid⟩).2.delivered = [] := by
  simp [retryLimit, List.replicate, runTrace, runStep, flushTick, flushEvents,
    retryOne, mapGet, mapSet, Effects.app, Effects.empty]

/-- C1 (counterexample): instant mode, delivery failing on the first
capture, then a second capture whose delivery succeeds.  The code
performs exactly one delivery attempt per capture — each a singleton
batch of that capture's own event — re-enqueues the failed event
(retry log entry), and then leaves it sitting in the queue: no
immediate single-event retry delivery ever happens (there are no
other requests), and nothing in instant mode drains the queue. -/
theorem instant_mode_no_retry_redelivery_cex :
    (runTrace cfgInstant
        [Step.capture sampleEvent envAliceFail, Step.capture sampleEvent envAliceOk2]
        ⟨[], [], none⟩).1.eventQueue
      = [⟨sampleEvent, 1000, some "user:default/alice", some aliceMeta, none⟩] ∧
    (runTrace cfgInstant
        [Step.capture sampleEvent envAliceFail, Step.capture sampleEvent envAliceOk2]
        ⟨[], [], none⟩).2.requests
      = [deliveryRequest cfgInstant
           [⟨sampleEvent, 1000, some "user:default/alice", some aliceMeta, none⟩],
         deliveryRequest cfgInstant
           [⟨sampleEvent, 2000, some "user:default/alice", some aliceMeta, none⟩]] ∧
    (runTrace cfgInstant
        [Step.capture sampleEvent envAliceFail, Step.capture sampleEvent envAliceOk2]
        ⟨[], [], none⟩).2.delivered
      = [[⟨sampleEvent, 2000, some "user:default/alice", some aliceMeta, none⟩]] ∧
    (runTrace cfgInstant
        [Step.capture sampleEvent envAliceFail, Step.capture sampleEvent envAliceOk2]
        ⟨[], [], none⟩).2.retryLogs
      = [jsonStringifyEnriched
          ⟨sampleEvent, 1000, some "user:default/alice", some aliceMeta, none⟩] := by
  refine ⟨?_, ?_, ?_, ?_⟩ <;> rfl

/-- C1 (amended): in instant mode, when a capture's delivery attempt
fails and the event's retry count is below `retryLimit`, the event is
re-enqueued onto the in-memory queue with its count incremented — but
the capture performs exactly one delivery attempt in total, so the
event is *not* re-delivered immediately; since instant mode starts no
flush timer and later instant captures flush only their own event, it
remains undelivered in the queue. -/
theorem instant_capture_failure_reenqueues_no_redelivery (cfg : APIConfig)
    (env : CaptureEnv) (ev : String) (st : APIState) (md : Option String)
    (h₀ : cfg.flushInterval = 0)
    (hu : userFalsy (getUser env.idRes) = false)
    (hc : env.catRes = Except.ok md)
    (hf : env.deliveryOk = false)
    (hr : (mapGet st.eventRetryCounter
            (jsonStringifyEnriched (enrichOf env md ev st))).getD 0 < retryLimit) :
    capture cfg env ev st =
      ⟨false,
       ⟨st.eventQueue ++ [enrichOf env md ev st],
        mapSet st.eventRetryCounter (jsonStringifyEnriched (enrichOf env md ev st))
          ((mapGet st.eventRetryCounter
              (jsonStringifyEnriched (enrichOf env md ev st))).getD 0 + 1),
        st.sessionId⟩,
       ⟨[deliveryRequest cfg [enrichOf env md ev st]],
        [ErrorPost.flushFailed "Failed to flush analytics events"],
        [jsonStringifyEnriched (enrichOf env md ev st)],
        []⟩⟩ := by
  simp [capture, h₀, instantCaptureEvent, hu, hc, hf, flushEvents, retryOne, hr]

/-- Witness for the amended C1: first instant capture with failing
delivery from the empty state. -/
theorem instant_capture_failure_reenqueues_witness :
    cfgInstant.flushInterval = 0 ∧
    capture cfgInstant envAliceFail sampleEvent ⟨[], [], none⟩ =
      ⟨false,
       ⟨[enrichOf envAliceFail (some aliceMeta) sampleEvent ⟨[], [], none⟩],
        mapSet []
          (jsonStringifyEnriched
            (enrichOf envAliceFail (some aliceMeta) sampleEvent ⟨[], [], none⟩)) 1,
        none⟩,
       ⟨[deliveryRequest cfgInstant
           [enrichOf envAliceFail (some aliceMeta) sampleEvent ⟨[], [], none⟩]],
        [ErrorPost.flushFailed "Failed to flush analytics events"],
        [jsonStringifyEnriched
          (enrichOf envAliceFail (some aliceMeta) sampleEvent ⟨[], [], none⟩)],
        []⟩⟩ := by
  refine ⟨rfl, ?_⟩
  have h := instant_capture_failure_reenqueues_no_redelivery cfgInstant envAliceFail
    sampleEvent ⟨[], [], none⟩ (some aliceMeta) rfl rfl rfl rfl
    (by simp [retryLimit])
  simpa using h

/-! ### Timer-mode trace lemmas for C4 -/

theorem captureEvent_timer (cfg : APIConfig) (env : CaptureEnv) (ev : String)
    (st : APIState) (md : Option String)
    (h : ¬ cfg.flushInterval = 0)
    (hu : userFalsy (getUser env.idRes) = false)
    (hc : env.catRes = Except.ok md) :
    captureEvent cfg env ev st =
      ⟨false, ⟨st.eventQueue ++ [enrichOf env md ev st],
               st.eventRetryCounter, st.sessionId⟩, Effects.empty⟩ := by
  simp [captureEvent, hu, hc, h]

theorem runTrace_append (cfg : APIConfig) (a b : List Step) (st : APIState) :
    runTrace cfg (a ++ b) st =
      ((runTrace cfg b (runTrace cfg a st).1).1,
       Effects.app (runTrace cfg a st).2 (runTrace cfg b (runTrace cfg a st).1).2) := by
  induction a generalizing st with
  | nil => simp [runTrace]
  | cons s rest ih => simp [runTrace, ih, Effects.app_assoc]

theorem runCaptures_timer (cfg : APIConfig) (inputs : List (String × CaptureEnv)) :
    ∀ st : APIState, ¬ cfg.flushInterval = 0 → (∀ i ∈ inputs, GoodInput i) →
      runTrace cfg (inputs.map (fun i => Step.capture i.1 i.2)) st =
        (⟨st.eventQueue ++ inputs.map (enrichInput st.sessionId),
          st.eventRetryCounter, st.sessionId⟩, Effects.empty) := by
  induction inputs with
  | nil =>
    intro st h hg
    simp [runTrace]
  | cons i rest ih =>
    intro st h hg
    obtain ⟨hu, md, hc⟩ := hg i (by simp)
    have hrest : ∀ j ∈ rest, GoodInput j := fun j hj => hg j (by simp [hj])
    have hmd : enrichInput st.sessionId i = enrichOf i.2 md i.1 st := by
      simp [enrichInput, enrichOf, exceptMd, hc]
    have hcap : capture cfg i.2 i.1 st =
        ⟨false, ⟨st.eventQueue ++ [enrichOf i.2 md i.1 st],
                 st.eventRetryCounter, st.sessionId⟩, Effects.empty⟩ := by
      simp [capture, h, captureEvent_timer cfg i.2 i.1 st md h hu hc]
    simp [runTrace, runStep, hcap,
      ih ⟨st.eventQueue ++ [enrichOf i.2 md i.1 st], st.eventRetryCounter, st.sessionId⟩
        h hrest, hmd]

theorem flushTick_ok (cfg : APIConfig) (st : APIState) (h : st.eventQueue ≠ []) :
    flushTick cfg true st =
      (⟨[], st.eventRetryCounter, st.sessionId⟩,
       ⟨[deliveryRequest cfg st.eventQueue], [], [], [st.eventQueue]⟩) := by
  have hlen0 : ¬ st.eventQueue.length = 0 := by simpa using h
  have hlen : st.eventQueue.length > 0 := Nat.pos_of_ne_zero hlen0
  simp [flushTick, hlen, flushEvents, hlen0]

/-- C4: with a positive flush interval, N captures (N ≥ 1, each with
a resolvable user and a returning catalog lookup) landing in an empty
queue before the next timer tick produce, at that tick, exactly one
delivery call whose batch is exactly the N enriched events; the
delivery succeeds as one batch and the queue is empty immediately
afterwards. -/
theorem batch_flush_delivers_all (cfg : APIConfig)
    (inputs : List (String × CaptureEnv)) (st : APIState)
    (hi : ¬ cfg.flushInterval = 0) (hq : st.eventQueue = []) (hne : inputs ≠ [])
    (hg : ∀ i ∈ inputs, GoodInput i) :
    (runTrace cfg (inputs.map (fun i => Step.capture i.1 i.2) ++ [Step.tick true])
        st).2.requests
      = [deliveryRequest cfg (inputs.map (enrichInput st.sessionId))] ∧
    (runTrace cfg (inputs.map (fun i => Step.capture i.1 i.2) ++ [Step.tick true])
        st).2.delivered
      = [inputs.map (enrichInput st.sessionId)] ∧
    (inputs.map (enrichInput st.sessionId)).length = inputs.length ∧
    (runTrace cfg (inputs.map (fun i => Step.capture i.1 i.2) ++ [Step.tick true])
        st).1.eventQueue = [] := by
  have hmid : (⟨inputs.map (enrichInput st.sessionId),
      st.eventRetryCounter, st.sessionId⟩ : APIState).eventQueue ≠ [] := by
    simp [hne]
  rw [runTrace_append, runCaptures_timer cfg inputs st hi hg]
  simp [runTrace, runStep, hq, flushTick_ok _ _ hmid, Effects.app, Effects.empty]

/-- Witness for C4: two good captures into an empty queue under the
default 30-minute interval, then one successful tick. -/
theorem batch_flush_delivers_all_witness :
    (runTrace cfgTimer
        (([(sampleEvent, envAliceOk), (sampleEvent, envAliceOk2)].map
            (fun i => Step.capture i.1 i.2)) ++ [Step.tick true])
        ⟨[], [], none⟩).2.delivered
      = [[(sampleEvent, envAliceOk), (sampleEvent, envAliceOk2)].map (enrichInput none)] ∧
    (runTrace cfgTimer
        (([(sampleEvent, envAliceOk), (sampleEvent, envAliceOk2)].map
            (fun i => Step.capture i.1 i.2)) ++ [Step.tick true])
        ⟨[], [], none⟩).1.eventQueue = [] := by
  have hg : ∀ i ∈ [(sampleEvent, envAliceOk), (sampleEvent, envAliceOk2)], GoodInput i := by
    intro i hi
    simp at hi
    rcases hi with h | h <;> subst h <;> exact ⟨rfl, some aliceMeta, rfl⟩
  have h := batch_flush_delivers_all cfgTimer
    [(sampleEvent, envAliceOk), (sampleEvent, envAliceOk2)] ⟨[], [], none⟩
    (by simp [cfgTimer, computeFlushInterval]) rfl (by simp) hg
  exact ⟨h.2.1, h.2.2.2⟩

/-! ### Retry-ledger lemmas for C7 and C10 -/

theorem mapSet_bounded (m : List (String × Nat)) (k : String) (v : Nat)
    (hm : CounterBounded m) (hv : v ≤ retryLimit) : CounterBounded (mapSet m k v) := by
  intro k₂ v₂ h
  rw [mapGet_mapSet] at h
  split at h
  · cases h; exact hv
  · exact hm k₂ v₂ h

theorem retryOne_bounded (acc : APIState × Effects) (ev : EnrichedEvent)
    (h : CounterBounded acc.1.eventRetryCounter) :
    CounterBounded (retryOne acc ev).1.eventRetryCounter := by
  by_cases hlt : (mapGet acc.1.eventRetryCounter (jsonStringifyEnriched ev)).getD 0
      < retryLimit
  · simp only [retryOne, hlt, if_pos]
    exact mapSet_bounded _ _ _ h hlt
  · simpa only [retryOne, hlt, if_neg, not_false_iff] using h

theorem retryFold_bounded (events : List EnrichedEvent) :
    ∀ acc : APIState × Effects, CounterBounded acc.1.eventRetryCounter →
      CounterBounded ((events.foldl retryOne acc).1.eventRetryCounter) := by
  induction events with
  | nil => intro acc h; exact h
  | cons e es ih =>
    intro acc h
    rw [List.foldl_cons]
    exact ih _ (retryOne_bounded acc e h)

theorem flushEvents_bounded (cfg : APIConfig) (deliveryOk : Bool)
    (events : List EnrichedEvent) (st : APIState)
    (h : CounterBounded st.eventRetryCounter) :
    CounterBounded ((flushEvents cfg deliveryOk events st).1.eventRetryCounter) := by
  by_cases hlen : events.length = 0
  · simpa [flushEvents, hlen] using h
  · cases deliveryOk
    · simp only [flushEvents, hlen, if_neg, not_false_iff, Bool.false_eq_true, if_false]
      exact retryFold_bounded events _ h
    · simpa [flushEvents, hlen] using h

theorem retryOne_mono (acc : APIState × Effects) (ev : EnrichedEvent) (k : String)
    (v : Nat) (h : mapGet acc.1.eventRetryCounter k = some v) :
    ∃ v₂, mapGet ((retryOne acc ev).1.eventRetryCounter) k = some v₂ ∧ v ≤ v₂ := by
  by_cases hlt : (mapGet acc.1.eventRetryCounter (jsonStringifyEnriched ev)).getD 0
      < retryLimit
  · by_cases hk : jsonStringifyEnriched ev = k
    · subst hk
      refine ⟨(mapGet acc.1.eventRetryCounter (jsonStringifyEnriched ev)).getD 0 + 1,
        by simp [retryOne, hlt, mapGet_mapSet_self], ?_⟩
      rw [h]
      simp
    · exact ⟨v, by simp [retryOne, hlt, mapGet_mapSet, hk, h], Nat.le_refl v⟩
  · exact ⟨v, by simp [retryOne, hlt, h], Nat.le_refl v⟩

theorem retryFold_mono (events : List EnrichedEvent) :
    ∀ (acc : APIState × Effects) (k : String) (v : Nat),
      mapGet acc.1.eventRetryCounter k = some v →
      ∃ v₂, mapGet (((events.foldl retryOne acc)).1.eventRetryCounter) k = some v₂ ∧
        v ≤ v₂ := by
  induction events with
  | nil => intro acc k v h; exact ⟨v, h, Nat.le_refl v⟩
  | cons e es ih =>
    intro acc k v h
    rw [List.foldl_cons]
    obtain ⟨v₁, h₁, hle₁⟩ := retryOne_mono acc e k v h
    obtain ⟨v₂, h₂, hle₂⟩ := ih (retryOne acc e) k v₁ h₁
    exact ⟨v₂, h₂, Nat.le_trans hle₁ hle₂⟩

theorem flushEvents_mono (cfg : APIConfig) (deliveryOk : Bool)
    (events : List EnrichedEvent) (st : APIState) (k : String) (v : Nat)
    (h : mapGet st.eventRetryCounter k = some v) :
    ∃ v₂, mapGet ((flushEvents cfg deliveryOk events st).1.eventRetryCounter) k
        = some v₂ ∧ v ≤ v₂ := by
  by_cases hlen : events.length = 0
  · exact ⟨v, by simpa [flushEvents, hlen] using h, Nat.le_refl v⟩
  · cases deliveryOk
    · simp only [flushEvents, hlen, if_neg, not_false_iff, Bool.false_eq_true, if_false]
      exact retryFold_mono events _ k v h
    · exact ⟨v, by simpa [flushEvents, hlen] using h, Nat.le_refl v⟩

theorem retryFold_counter_count (events : List EnrichedEvent) :
    ∀ (acc : APIState × Effects) (k : String),
      (mapGet ((events.foldl retryOne acc).1.eventRetryCounter) k).getD 0
        + acc.2.retryLogs.count k
      = (mapGet acc.1.eventRetryCounter k).getD 0
        + ((events.foldl retryOne acc).2.retryLogs.count k) := by
  induction events with
  | nil => intro acc k; rfl
  | cons e es ih =>
    intro acc k
    rw [List.foldl_cons]
    have hstep := ih (retryOne acc e) k
    by_cases hlt : (mapGet acc.1.eventRetryCounter (jsonStringifyEnriched e)).getD 0
        < retryLimit
    · by_cases hk : jsonStringifyEnriched e = k
      · subst hk
        have hc : (mapGet (retryOne acc e).1.eventRetryCounter
              (jsonStringifyEnriched e)).getD 0
            = (mapGet acc.1.eventRetryCounter (jsonStringifyEnriched e)).getD 0 + 1 := by
          simp [retryOne, hlt, mapGet_mapSet_self]
        have hl : (retryOne acc e).2.retryLogs.count (jsonStringifyEnriched e)
            = acc.2.retryLogs.count (jsonStringifyEnriched e) + 1 := by
          simp [retryOne, hlt, List.count_append]
        omega
      · have hc : (mapGet (retryOne acc e).1.eventRetryCounter k).getD 0
            = (mapGet acc.1.eventRetryCounter k).getD 0 := by
          simp [retryOne, hlt, mapGet_mapSet, hk]
        have hl : (retryOne acc e).2.retryLogs.count k = acc.2.retryLogs.count k := by
          simp [retryOne, hlt, List.count_append, List.count_singleton', hk]
        omega
    · have hc : (retryOne acc e).1.eventRetryCounter = acc.1.eventRetryCounter := by
        simp [retryOne, hlt]
      have hl : (retryOne acc e).2.retryLogs = acc.2.retryLogs := by
        simp [retryOne, hlt]
      rw [hc, hl] at hstep
      omega

theorem flushEvents_counter_count (cfg : APIConfig) (deliveryOk : Bool)
    (events : List EnrichedEvent) (st : APIState) (k : String) :
    (mapGet ((flushEvents cfg deliveryOk events st).1.eventRetryCounter) k).getD 0
    = (mapGet st.eventRetryCounter k).getD 0
      + (flushEvents cfg deliveryOk events st).2.retryLogs.count k := by
  by_cases hlen : events.length = 0
  · simp [flushEvents, hlen, Effects.empty]
  · cases deliveryOk
    · have h := retryFold_counter_count events
        (st, ⟨[deliveryRequest cfg events],
              [ErrorPost.flushFailed "Failed to flush analytics events"], [], []⟩) k
      simp only [flushEvents, hlen, if_neg, not_false_iff, Bool.false_eq_true, if_false]
      simpa using h
    · simp [flushEvents, hlen]

/-- Every operation's effect on the retry ledger factors through
`flushEvents`: either the ledger is untouched and no retry is logged,
or ledger and retry log are exactly those of some `flushEvents` call
starting from the same ledger. -/
theorem runStep_counter_cases (cfg : APIConfig) (st : APIState) (s : Step) :
    ((runStep cfg st s).1.eventRetryCounter = st.eventRetryCounter ∧
     (runStep cfg st s).2.retryLogs = []) ∨
    (∃ deliveryOk events st₀, st₀.eventRetryCounter = st.eventRetryCounter ∧
      (runStep cfg st s).1.eventRetryCounter
        = (flushEvents cfg deliveryOk events st₀).1.eventRetryCounter ∧
      (runStep cfg st s).2.retryLogs
        = (flushEvents cfg deliveryOk events st₀).2.retryLogs) := by
  cases s with
  | tick deliveryOk =>
    by_cases h : st.eventQueue.length > 0
    · exact Or.inr ⟨deliveryOk, st.eventQueue, ⟨[], st.eventRetryCounter, st.sessionId⟩,
        rfl, by simp [runStep, flushTick, h], by simp [runStep, flushTick, h]⟩
    · exact Or.inl ⟨by simp [runStep, flushTick, h, Effects.empty],
        by simp [runStep, flushTick, h, Effects.empty]⟩
  | capture ev env =>
    by_cases hu : userFalsy (getUser env.idRes) = true
    · exact Or.inl ⟨by simp [runStep, capture, instantCaptureEvent, captureEvent, hu,
        Effects.empty], by simp [runStep, capture, instantCaptureEvent, captureEvent, hu,
        Effects.empty]⟩
    · cases hc : env.catRes with
      | error e =>
        exact Or.inl ⟨by simp [runStep, capture, instantCaptureEvent, captureEvent, hu,
          hc, Effects.empty], by simp [runStep, capture, instantCaptureEvent,
          captureEvent, hu, hc, Effects.empty]⟩
      | ok md =>
        by_cases hfi : cfg.flushInterval = 0
        · exact Or.inr ⟨env.deliveryOk, [enrichOf env md ev st], st, rfl,
            by simp [runStep, capture, instantCaptureEvent, hu, hc, hfi],
            by simp [runStep, capture, instantCaptureEvent, hu, hc, hfi]⟩
        · exact Or.inl ⟨by simp [runStep, capture, captureEvent, hu, hc, hfi,
            Effects.empty], by simp [runStep, capture, captureEvent, hu, hc, hfi,
            Effects.empty]⟩

theorem runStep_bounded (cfg : APIConfig) (st : APIState) (s : Step)
    (h : CounterBounded st.eventRetryCounter) :
    CounterBounded ((runStep cfg st s).1.eventRetryCounter) := by
  rcases runStep_counter_cases cfg st s with ⟨hc, _⟩ | ⟨dok, events, st₀, h₀, hc, _⟩
  · rw [hc]; exact h
  · rw [hc]
    exact flushEvents_bounded cfg dok events st₀ (by rw [h₀]; exact h)

theorem runStep_counter_count (cfg : APIConfig) (st : APIState) (s : Step) (k : String) :
    (mapGet ((runStep cfg st s).1.eventRetryCounter) k).getD 0
    = (mapGet st.eventRetryCounter k).getD 0 + (runStep cfg st s).2.retryLogs.count k := by
  rcases runStep_counter_cases cfg st s with ⟨hc, hl⟩ | ⟨dok, events, st₀, h₀, hc, hl⟩
  · simp [hc, hl]
  · rw [hc, hl, flushEvents_counter_count, h₀]

theorem runStep_mono (cfg : APIConfig) (st : APIState) (s : Step) (k : String) (v : Nat)
    (h : mapGet st.eventRetryCounter k = some v) :
    ∃ v₂, mapGet ((runStep cfg st s).1.eventRetryCounter) k = some v₂ ∧ v ≤ v₂ := by
  rcases runStep_counter_cases cfg st s with ⟨hc, _⟩ | ⟨dok, events, st₀, h₀, hc, _⟩
  · exact ⟨v, by rw [hc]; exact h, Nat.le_refl v⟩
  · rw [hc]
    exact flushEvents_mono cfg dok events st₀ k v (by rw [h₀]; exact h)

theorem runTrace_bounded (cfg : APIConfig) (steps : List Step) :
    ∀ st : APIState, CounterBounded st.eventRetryCounter →
      CounterBounded ((runTrace cfg steps st).1.eventRetryCounter) := by
  induction steps with
  | nil => intro st h; exact h
  | cons s rest ih =>
    intro st h
    simp only [runTrace]
    exact ih _ (runStep_bounded cfg st s h)

theorem runTrace_counter_count (cfg : APIConfig) (steps : List Step) :
    ∀ (st : APIState) (k : String),
      (mapGet ((runTrace cfg steps st).1.eventRetryCounter) k).getD 0
      = (mapGet st.eventRetryCounter k).getD 0
        + (runTrace cfg steps st).2.retryLogs.count k := by
  induction steps with
  | nil => intro st k; simp [runTrace, Effects.empty]
  | cons s rest ih =>
    intro st k
    have h₁ := runStep_counter_count cfg st s k
    have h₂ := ih (runStep cfg st s).1 k
    simp only [runTrace, Effects.app, List.count_append]
    omega

/-- C7: the retry-ledger invariant — every stored retry count is at
most `retryLimit` — is preserved by every operation of the component
(any capture call with any collaborator behaviour, and any timer tick
with any delivery outcome), because a count is only ever written as
`retries + 1` under the guard `retries < retryLimit`. -/
theorem retry_counter_bounded_invariant (cfg : APIConfig) (st : APIState) (s : Step)
    (h : CounterBounded st.eventRetryCounter) :
    CounterBounded ((runStep cfg st s).1.eventRetryCounter) :=
  runStep_bounded cfg st s h

/-- Witness for C7: a ledger already holding a count equal to
`retryLimit` stays bounded across a failing tick on a non-empty
queue. -/
theorem retry_counter_bounded_invariant_witness :
    CounterBounded [("id", 3)] ∧
    CounterBounded ((runStep cfgInstant
        ⟨[⟨sampleEvent, 1, some "u", none, none⟩], [("id", 3)], none⟩
        (Step.tick false)).1.eventRetryCounter) := by
  have hb : CounterBounded [("id", 3)] := by
    intro k v hv
    simp only [mapGet] at hv
    split at hv
    · injection hv with h
      subst h
      decide
    · simp at hv
  exact ⟨hb, retry_counter_bounded_invariant cfgInstant _ (Step.tick false) hb⟩

/-- C10: the retry identity of a batch entry is the full JSON
serialization of the enriched record (`retryOne` keys the ledger and
the retry log by `jsonStringifyEnriched`), and the ledger is append-
or-increment only.  First conjunct: no operation ever deletes a
ledger entry or decrements its count (successful deliveries included,
so counts from earlier failures stay in place).  Second conjunct: in
any run from a fresh instance, the total number of re-enqueues of all
events sharing a given serialization `k` combined — the count of `k`
in the retry log — is at most `retryLimit`, because every re-enqueue
increments the single shared counter for `k` and requires it to be
below `retryLimit`. -/
theorem retry_ledger_monotone_and_bounded :
    (∀ (cfg : APIConfig) (st : APIState) (s : Step) (k : String) (v : Nat),
        mapGet st.eventRetryCounter k = some v →
        ∃ v₂, mapGet ((runStep cfg st s).1.eventRetryCounter) k = some v₂ ∧ v ≤ v₂) ∧
    (∀ (cfg : APIConfig) (steps : List Step) (sid : Option String) (k : String),
        ((runTrace cfg steps ⟨[], [], sid⟩).2.retryLogs.count k) ≤ retryLimit) := by
  constructor
  · exact fun cfg st s k v h => runStep_mono cfg st s k v h
  · intro cfg steps sid k
    have hcount := runTrace_counter_count cfg steps ⟨[], [], sid⟩ k
    have hbdd : CounterBounded ((runTrace cfg steps ⟨[], [], sid⟩).1.eventRetryCounter) :=
      runTrace_bounded cfg steps _ (by intro k₂ v h; simp [mapGet] at h)
    have hfin : (mapGet ((runTrace cfg steps
        ⟨[], [], sid⟩).1.eventRetryCounter) k).getD 0 ≤ retryLimit := by
      cases hm : mapGet ((runTrace cfg steps ⟨[], [], sid⟩).1.eventRetryCounter) k with
      | none => simp [retryLimit]
      | some v => simpa using hbdd k v hm
    simp only [mapGet] at hcount
    omega

/-- Witness for C10: a ledger entry at count 2 survives a successful
(empty-queue) tick unchanged, and a fresh one-tick run logs at most
`retryLimit` re-enqueues of any identity. -/
theorem retry_ledger_monotone_and_bounded_witness :
    mapGet [("id", 2)] "id" = some 2 ∧
    (∃ v₂, mapGet ((runStep cfgInstant ⟨[], [("id", 2)], none⟩
        (Step.tick true)).1.eventRetryCounter) "id" = some v₂ ∧ 2 ≤ v₂) ∧
    ((runTrace cfgInstant [Step.tick false] ⟨[], [], none⟩).2.retryLogs.count "id"
      ≤ retryLimit) := by
  refine ⟨by simp [mapGet], ?_,
    retry_ledger_monotone_and_bounded.2 cfgInstant [Step.tick false] none "id"⟩
  exact retry_ledger_monotone_and_bounded.1 cfgInstant ⟨[], [("id", 2)], none⟩
    (Step.tick true) "id" 2 (by simp [mapGet])

end AnalyticsForwarder
